import Mathlib

/-!
# Verification of `photo_sorter.py`

A shallow embedding of the photo-sorting pipeline (`src/photo_sorter.py`)
and proofs of the specification's claims about it.

Modelling conventions:

* Machine state that the script manipulates through the OS is made explicit:
  the filesystem is an association list from path to byte content, the
  persisted ledger (`.database.csv`) is split into the bytes already on disk
  (`onDisk`) and the bytes sitting in the process's buffered append stream
  (`buffered`): Python's `csv.writer(open(filename, "ab"))` writes through a
  buffered stream that is flushed only when the file object is closed
  (at clean interpreter exit), so a row written by `writerow` is not on disk
  when the call returns.
* The SHA-1 content digest (`HashDatabase.get_file_hash`) is modelled as the
  identity on the file's byte content: the digest is collision-resistant and
  the claims quantify over byte-identical content, so an injective digest is
  the faithful idealization; the 64 KiB chunked read is a memory
  optimization with no semantic content.
* The external metadata decoder (PIL `Image.open`/`_getexif`), out of scope
  per the design, is modelled at its interface: per candidate file it yields
  either no EXIF dictionary, a dictionary without the `DateTimeOriginal`
  field, a field that fails `strptime`, or a parsed timestamp.
* `sys.exit(n)` is modelled as aborting the run with recorded exit status
  `n`; falling off the end of the script is a normal completion with exit
  status 0.
* Log calls are modelled as emitted `Event` values.
-/

/-- Diagnostic events emitted by the script's `logging` calls. -/
inductive Event where
  /-- `logging.debug("Ignoring %s", file_path)` for a non-jpeg entry. -/
  | debugIgnoring (path : String)
  /-- `logging.info("Duplicated photo : %s", file_path)`. -/
  | infoDuplicate (path : String)
  /-- `logging.info("No Exif data or file damaged : %s")`. -/
  | infoNoExif (name : String)
  /-- `logging.info("No date info in Exif for %s")`. -/
  | infoNoDateField (name : String)
  /-- `logging.warning("Incorrect date info in Exif for %s")`. -/
  | warnBadDate (name : String)
  /-- `logging.error("File %s already exist !", output_file)`. -/
  | errorDestExists (path : String)
  /-- `logging.error("Error while copying %s to %s", ...)`. -/
  | errorCopyFail (src dst : String)
  /-- `logging.warning("Hash signature file %s don't exist. Creating.")`. -/
  | warnNewStore
  /-- `logging.error("Error while reading %s. Abording", file_name)`. -/
  | errorStoreRead
  /-- `logging.error("Duplicated entry : %s", file_name)` in `add_hash`. -/
  | errorDupEntry (name : String)
  /-- `logging.debug("Hash database loaded : %d elements", ...)`. -/
  | debugLoaded (n : Nat)
  /-- `logging.info("Number of photos sorted : %d", count)`. -/
  | infoCount (n : Nat)
deriving DecidableEq, Repr

/-- The in-memory `HashDatabase.database` dict: digest to source path.
Lookup sees the most recent insertion for a key, as a Python dict does. -/
abbrev DB := List (String × String)

/-- Python dict assignment `self.database[k] = v`: any earlier binding of
`k` is superseded (here: filtered out, with the new pair put in front, so
that `List.lookup` sees exactly the dict's value). -/
def dbInsert (k v : String) (db : DB) : DB :=
  (k, v) :: db.filter (fun p => p.1 ≠ k)

/-- `HashDatabase.exist`: `hash in self.database`. -/
def dbExist (k : String) (db : DB) : Bool :=
  (db.lookup k).isSome

/-- One row of the persisted csv store, as written by
`csv_writer.writerow([hash, file_name])`. -/
abbrev Row := String × String

/-- `HashDatabase.add_hash(hash, file_name)` (lines 71-76).  If the digest
is already present it logs `Duplicated entry` and changes nothing;
otherwise it assigns `database[hash] = file_name` and writes one csv row to
the buffered append stream.  Returns the new dict, the new buffered rows
and the events logged.  The on-disk part of the store is untouched in both
branches: `writerow` only reaches the stream's buffer. -/
def add_hash (db : DB) (buffered : List Row) (hash file_name : String) :
    DB × List Row × List Event :=
  if dbExist hash db then
    (db, buffered, [.errorDupEntry file_name])
  else
    (dbInsert hash file_name db, buffered ++ [(hash, file_name)], [])

/-- The persisted store file as found on disk at startup: whether opening
and reading it raises, and the parsed csv rows (a row is the list of its
fields; the code reads `row[0]` and `row[1]`). -/
structure Store where
  readable : Bool
  rows : List (List String)
deriving DecidableEq, Repr

/-- A row on which `row[0]`/`row[1]` raises `IndexError`: fewer than two
fields. -/
def badRow (r : List String) : Bool :=
  r.length < 2

/-- `HashDatabase.load_database` (lines 53-66).  `none` means
`os.path.exists` is false: the dict stays empty, a warning is logged, and
the run proceeds.  If the file exists, any exception while opening,
reading, or indexing a row (`row[1]` on a short row) is caught, logged and
answered by `sys.exit(0)`; otherwise every row is assigned into the dict
in order, the last assignment for a digest superseding earlier ones.
`Except.error` carries the exit status passed to `sys.exit`. -/
def load_database (store : Option Store) : Except (Nat × List Event) (DB × List Event) :=
  match store with
  | none => .ok ([], [.warnNewStore])
  | some s =>
    if s.readable = false ∨ s.rows.any badRow then
      .error (0, [.errorStoreRead])
    else
      let db := s.rows.foldl (fun db r => dbInsert (r.getD 0 "") (r.getD 1 "") db) []
      .ok (db, [.debugLoaded db.length])

/-- A `time.struct_time` as the script uses it: the fields consumed by
`strftime("%m-%B")`, `strftime("%d-%A")` and `tm_year`.  The weekday field
of a `struct_time` produced by `strptime` or `localtime` is derived from
year/month/day, so it is recomputed here (`dayOfWeek`) rather than stored. -/
structure Timestamp where
  year : Nat
  month : Nat
  day : Nat
  hour : Nat
  minute : Nat
  second : Nat
deriving DecidableEq, Repr

/-- What the metadata decoder yields for one candidate file, at the
interface the script consumes: `i._getexif()` returned `None`; it returned
a dict without `DateTimeOriginal` (`KeyError`); the field was present but
`time.strptime(..., "%Y:%m:%d %H:%M:%S")` raised; or it parsed. -/
inductive ExifInfo where
  | noExif
  | noDateField
  | badDateField
  | dateTimeOriginal (t : Timestamp)
deriving DecidableEq, Repr

/-- `PhotoSort.get_exif_date` (lines 99-119): use the parsed
`DateTimeOriginal` when available; in each of the three failure cases log
at the corresponding level and fall back to
`time.localtime(os.stat(filename).st_mtime)`, the file's last-modified
timestamp.  Always returns a timestamp. -/
def get_exif_date (name : String) (exif : ExifInfo) (mtime : Timestamp) :
    Timestamp × List Event :=
  match exif with
  | .noExif => (mtime, [.infoNoExif name])
  | .noDateField => (mtime, [.infoNoDateField name])
  | .badDateField => (mtime, [.warnBadDate name])
  | .dateTimeOriginal t => (t, [])

/-- The decimal digit character for `n < 10`. -/
def digitChar (n : Nat) : Char :=
  Char.ofNat (48 + n)

/-- Decimal rendering, fuel-indexed so that it is structurally recursive
(any `fuel > n` computes the digits of `n`). -/
def natCharsAux (fuel n : Nat) : List Char :=
  match fuel with
  | 0 => []
  | fuel + 1 =>
    if n < 10 then [digitChar n]
    else natCharsAux fuel (n / 10) ++ [digitChar (n % 10)]

/-- Decimal rendering of a natural number, most significant digit first:
the characters Python's `"{0}".format(year)` produces. -/
def natChars (n : Nat) : List Char :=
  natCharsAux (n + 1) n

/-- Value of a digit string, used to invert `natChars`. -/
def decVal (l : List Char) : Nat :=
  l.foldl (fun a c => 10 * a + (c.toNat - 48)) 0

/-- Python's `"%02d"` formatting for the month and day fields: zero-padded
to two characters (all inputs here are at most two digits). -/
def twoDigit (n : Nat) : List Char :=
  if n < 10 then ['0', digitChar n] else natChars n

/-- Calendar month names as `strftime("%B")` renders them.  The script
sets the user's preferred locale once at startup; within a run the name is
a function of the month number alone, which is all the claims use. -/
def monthName (m : Nat) : List Char :=
  (match m with
   | 1 => "January" | 2 => "February" | 3 => "March" | 4 => "April"
   | 5 => "May" | 6 => "June" | 7 => "July" | 8 => "August"
   | 9 => "September" | 10 => "October" | 11 => "November" | 12 => "December"
   | _ => "").data

/-- Weekday names as `strftime("%A")` renders them, indexed 0 = Sunday. -/
def weekdayName (w : Nat) : List Char :=
  (match w with
   | 0 => "Sunday" | 1 => "Monday" | 2 => "Tuesday" | 3 => "Wednesday"
   | 4 => "Thursday" | 5 => "Friday" | 6 => "Saturday"
   | _ => "").data

/-- Day of the week (0 = Sunday) of a Gregorian date, Sakamoto's method:
the value `strptime`/`localtime` store in the `tm_wday` field (up to the
fixed renumbering absorbed by `weekdayName`). -/
def dayOfWeek (y m d : Nat) : Nat :=
  let t := [0, 3, 2, 5, 0, 3, 5, 1, 4, 6, 2, 4]
  let y' := if m < 3 then y - 1 else y
  (y' + y' / 4 - y' / 100 + y' / 400 + t.getD (m - 1) 0 + d) % 7

/-- Characters of the relative destination directory built at lines
162-165: `"{0}/{1}/{2}".format(date.tm_year, strftime("%m-%B", date),
strftime("%d-%A", date))`. -/
def dirChars (y m d : Nat) : List Char :=
  natChars y ++ '/' :: (twoDigit m ++ '-' :: monthName m)
    ++ '/' :: (twoDigit d ++ '-' :: weekdayName (dayOfWeek y m d))

/-- The destination directory, relative to the output root, as a pure
function of the resolved date. -/
def dir_struct (t : Timestamp) : String :=
  ⟨dirChars t.year t.month t.day⟩

/-- `os.path.splitext` on a base name (no separators): the extension
starts at the last `'.'`, provided at least one character before that dot
is not itself a dot (so `".bashrc"` has no extension).  Returns
`(root, ext)` with `root ++ ext` the original name. -/
def splitext (p : List Char) : List Char × List Char :=
  match p.reverse.span (fun c => c ≠ '.') with
  | (_, []) => (p, [])
  | (rsuf, _ :: rpre) =>
    if rpre.any (fun c => c ≠ '.') then
      (rpre.reverse, '.' :: rsuf.reverse)
    else (p, [])

/-- `str.lower` on the characters of an extension. -/
def lowerChars (l : List Char) : List Char :=
  l.map Char.toLower

/-- The destination file name computed at lines 123-125: the base name
with its extension lower-cased, `root + ext.lower()`. -/
def outputName (name : List Char) : List Char :=
  (splitext name).1 ++ lowerChars (splitext name).2

/-- The lower-cased extension `os.path.splitext(file)[1].lower()` the
candidate filter at lines 150-154 tests against `.jpg`/`.jpeg`. -/
def extLower (name : List Char) : List Char :=
  lowerChars (splitext name).2

/-- The filesystem as the script observes and mutates it: an association
list from path to byte content.  Directories are not modelled as entries;
`os.makedirs` is a no-op on this state and its possible failure is folded
into the commit fault flag of the candidate being placed. -/
abbrev FS := List (String × String)

/-- `os.path.exists`. -/
def fsExists (p : String) (fs : FS) : Bool :=
  (fs.lookup p).isSome

/-- Result of `PhotoSort.copy_file`: `True` (placed), `False` (destination
conflict), or `sys.exit(code)` from the `except` clause. -/
inductive CopyResult where
  | success
  | conflict
  | fatal (code : Nat)
deriving DecidableEq, Repr

/-- `PhotoSort.copy_file(input_file, output_directory)` (lines 121-143).
The destination name is the base name with its extension lower-cased; if a
file already exists there the function logs and returns `False` without
touching anything.  Otherwise the commit step runs (directory creation
plus `shutil.move`/`shutil.copy`); `writeOk = false` injects a failure in
it, which the `except` clause answers with `sys.exit(0)`, leaving the
source in place.  On a successful commit in move mode the source is
removed only after the destination holds the content: `shutil.move` either
renames atomically or copies to the destination and removes the source
afterwards. -/
def copy_file (fs : FS) (remove writeOk : Bool) (input_file : String)
    (name : List Char) (output_directory : String) (content : String) :
    FS × CopyResult × List Event :=
  let output_file := output_directory ++ "/" ++ String.mk (outputName name)
  if fsExists output_file fs then
    (fs, .conflict, [.errorDestExists output_file])
  else if writeOk = false then
    (fs, .fatal 0, [.errorCopyFail input_file output_directory])
  else
    let fs1 := (output_file, content) :: fs
    let fs2 := if remove then fs1.filter (fun p => p.1 ≠ input_file) else fs1
    (fs2, .success, [])

/-- One file handed to the loop body of `PhotoSort.sort` by `os.walk`:
its walk directory and base name, its byte content, what the metadata
decoder yields for it, its filesystem mtime, and the commit fault flag. -/
structure FileRec where
  dir : String
  name : List Char
  content : String
  exif : ExifInfo
  mtime : Timestamp
  writeOk : Bool

/-- `file_path = os.path.join(root, file)`. -/
def filePath (f : FileRec) : String :=
  f.dir ++ "/" ++ String.mk f.name

/-- The mutable state of a run: the filesystem, the in-memory dict, the
persisted csv store split into its on-disk content and the rows sitting in
the process's buffered append stream, the success counter, and the log. -/
structure SortState where
  fs : FS
  db : DB
  onDisk : List Row
  buffered : List Row
  count : Nat
  events : List Event

/-- What the store holds after a crash (power loss, kill): only the bytes
that reached the disk; the buffered rows are lost. -/
def storeAfterCrash (st : SortState) : List Row :=
  st.onDisk

/-- What the store holds after a clean interpreter exit: closing the file
object flushes the buffered rows after the on-disk ones. -/
def storeAtCleanExit (st : SortState) : List Row :=
  st.onDisk ++ st.buffered

/-- Outcome of one iteration of the loop body: continue with the next
file, or `sys.exit(code)` out of the whole run. -/
inductive StepOut where
  | next (st : SortState)
  | abort (code : Nat) (st : SortState)

/-- Whether the candidate filter at lines 150-154 accepts a base name. -/
def isJpegName (name : List Char) : Bool :=
  extLower name = ".jpg".data ∨ extLower name = ".jpeg".data

/-- The loop body of `PhotoSort.sort` (lines 148-170) for one discovered
file: filter on the lower-cased extension; compute the digest and skip if
the dict already has it; resolve the date; build the destination directory
`os.path.join(output, dir_struct)`; place via `copy_file`, and only on a
`True` return record the digest with `add_hash` and bump the counter. -/
def sortStep (remove : Bool) (output : String) (st : SortState) (f : FileRec) : StepOut :=
  let path := filePath f
  if isJpegName f.name then
    let hash := f.content
    if dbExist hash st.db then
      .next { st with events := st.events ++ [.infoDuplicate path] }
    else
      let de := get_exif_date (String.mk f.name) f.exif f.mtime
      let output_directory := output ++ "/" ++ dir_struct de.1
      match copy_file st.fs remove f.writeOk path f.name output_directory f.content with
      | (fs', .conflict, evs') =>
        .next { st with fs := fs', events := st.events ++ de.2 ++ evs' }
      | (fs', .fatal c, evs') =>
        .abort c { st with fs := fs', events := st.events ++ de.2 ++ evs' }
      | (fs', .success, evs') =>
        let ah := add_hash st.db st.buffered hash path
        .next { fs := fs', db := ah.1, onDisk := st.onDisk, buffered := ah.2.1,
                count := st.count + 1,
                events := st.events ++ de.2 ++ evs' ++ ah.2.2 }
  else
    .next { st with events := st.events ++ [.debugIgnoring path] }

/-- A finished run: the script fell off the end of `sort` (process exit
status 0), or some `sys.exit(code)` fired. -/
inductive RunResult where
  | completed (st : SortState)
  | fatalExit (code : Nat) (st : SortState)

/-- `PhotoSort.sort` over the discovered files in discovery order, ending
with the `Number of photos sorted` log line. -/
def sortFiles (remove : Bool) (output : String) (st : SortState) :
    List FileRec → RunResult
  | [] => .completed { st with events := st.events ++ [.infoCount st.count] }
  | f :: rest =>
    match sortStep remove output st f with
    | .next st' => sortFiles remove output st' rest
    | .abort c st' => .fatalExit c st'

/-- The rows of the pre-existing store as digest/path pairs (its on-disk
content at startup). -/
def storeRows : Option Store → List Row
  | none => []
  | some s => s.rows.map (fun r => (r.getD 0 "", r.getD 1 ""))

/-- The whole-run input: the discovered files in discovery order, the
initial filesystem, the persisted store found at startup, and the two
command-line choices (`--remove`, `--output`). -/
structure Env where
  files : List FileRec
  initFS : FS
  store : Option Store
  remove : Bool
  output : String

/-- A whole run of the script with a valid input directory: construct the
`HashDatabase` (loading the store; a load failure is `sys.exit(0)` before
any destination file is touched), then `sort`. -/
def runPhotoSort (env : Env) : RunResult :=
  match load_database env.store with
  | .error (c, evs) =>
    .fatalExit c { fs := env.initFS, db := [], onDisk := storeRows env.store,
                   buffered := [], count := 0, events := evs }
  | .ok (db, evs) =>
    sortFiles env.remove env.output
      { fs := env.initFS, db := db, onDisk := storeRows env.store,
        buffered := [], count := 0, events := evs } env.files

/-- The process exit status a run produces: the argument of the
`sys.exit` that fired, or 0 for a completed run. -/
def RunResult.exitCode : RunResult → Nat
  | .completed _ => 0
  | .fatalExit c _ => c

/-- Whether the run was cut short by a fatal `sys.exit`. -/
def RunResult.isFatal : RunResult → Bool
  | .completed _ => false
  | .fatalExit _ _ => true

/-- The machine state when the run ended. -/
def RunResult.state : RunResult → SortState
  | .completed st => st
  | .fatalExit _ st => st

/-! ### Decimal rendering: fuel irrelevance, roundtrip, digit shape -/

theorem natCharsAux_congr : ∀ (f1 f2 n : Nat), n < f1 → n < f2 →
    natCharsAux f1 n = natCharsAux f2 n
  | 0, _, _, h1, _ => absurd h1 (by omega)
  | _ + 1, 0, _, _, h2 => absurd h2 (by omega)
  | f1 + 1, f2 + 1, n, h1, h2 => by
    simp only [natCharsAux]
    split
    · rfl
    · rename_i h
      have hd : n / 10 < n := Nat.div_lt_self (by omega) (by omega)
      rw [natCharsAux_congr f1 f2 (n / 10) (by omega) (by omega)]

theorem natChars_eq (n : Nat) :
    natChars n = if n < 10 then [digitChar n]
      else natChars (n / 10) ++ [digitChar (n % 10)] := by
  conv_lhs => unfold natChars natCharsAux
  split
  · rfl
  · rename_i h
    have hd : n / 10 < n := Nat.div_lt_self (by omega) (by omega)
    unfold natChars
    rw [natCharsAux_congr n (n / 10 + 1) (n / 10) (by omega) (by omega)]

theorem digitChar_toNat {d : Nat} (h : d < 10) : (digitChar d).toNat = 48 + d := by
  interval_cases d <;> rfl

theorem digitChar_isDigit {d : Nat} (h : d < 10) : (digitChar d).isDigit = true := by
  interval_cases d <;> decide

theorem natChars_isDigit (n : Nat) : ∀ c ∈ natChars n, c.isDigit = true := by
  induction n using Nat.strong_induction_on with
  | _ n ih =>
    rw [natChars_eq]
    split
    · rename_i h
      intro c hc
      simp only [List.mem_singleton] at hc
      subst hc
      exact digitChar_isDigit h
    · rename_i h
      intro c hc
      rcases List.mem_append.mp hc with hc | hc
      · exact ih (n / 10) (Nat.div_lt_self (by omega) (by omega)) c hc
      · simp only [List.mem_singleton] at hc
        subst hc
        exact digitChar_isDigit (Nat.mod_lt _ (by omega))

theorem decVal_append (l : List Char) (c : Char) :
    decVal (l ++ [c]) = 10 * decVal l + (c.toNat - 48) := by
  simp [decVal, List.foldl_append]

theorem decVal_natChars (n : Nat) : decVal (natChars n) = n := by
  induction n using Nat.strong_induction_on with
  | _ n ih =>
    rw [natChars_eq]
    split
    · rename_i h
      simp [decVal, digitChar_toNat h]
    · rename_i h
      rw [decVal_append, ih (n / 10) (Nat.div_lt_self (by omega) (by omega)),
        digitChar_toNat (Nat.mod_lt _ (by omega))]
      omega

theorem natChars_inj {a b : Nat} (h : natChars a = natChars b) : a = b := by
  have h2 := congrArg decVal h
  rwa [decVal_natChars, decVal_natChars] at h2

theorem natChars_no_slash (n : Nat) : ∀ c ∈ natChars n, c ≠ '/' := by
  intro c hc heq
  have hd := natChars_isDigit n c hc
  rw [heq] at hd
  exact absurd hd (by decide)

/-! ### Two-digit fields -/

theorem twoDigit_length : ∀ n < 32, (twoDigit n).length = 2 := by decide

theorem twoDigit_inj : ∀ a < 32, ∀ b < 32, twoDigit a = twoDigit b → a = b := by decide

/-! ### Splitting a path at an unambiguous separator -/

theorem append_slash_inj : ∀ (a b s t : List Char),
    (∀ c ∈ a, c ≠ '/') → (∀ c ∈ b, c ≠ '/') →
    a ++ '/' :: s = b ++ '/' :: t → a = b ∧ s = t
  | [], [], _, _, _, _, h => by
    simp only [List.nil_append, List.cons.injEq] at h
    exact ⟨rfl, h.2⟩
  | [], x :: b, s, t, _, hb, h => by
    simp only [List.nil_append, List.cons_append, List.cons.injEq] at h
    exact absurd h.1.symm (hb x (by simp))
  | x :: a, [], s, t, ha, _, h => by
    simp only [List.nil_append, List.cons_append, List.cons.injEq] at h
    exact absurd h.1 (ha x (by simp))
  | x :: a, y :: b, s, t, ha, hb, h => by
    simp only [List.cons_append, List.cons.injEq] at h
    obtain ⟨h1, h2⟩ := h
    obtain ⟨ih1, ih2⟩ := append_slash_inj a b s t
      (fun c hc => ha c (by simp [hc])) (fun c hc => hb c (by simp [hc])) h2
    exact ⟨by rw [h1, ih1], ih2⟩

/-! ### Injectivity of the destination directory string -/

theorem dirChars_decomp (y m d : Nat) :
    dirChars y m d = natChars y ++ '/' ::
      ((twoDigit m ++ '-' :: monthName m) ++ '/' ::
        (twoDigit d ++ '-' :: weekdayName (dayOfWeek y m d))) := by
  simp [dirChars]

theorem take_two_append {a b : List Char} (h : a.length = 2) :
    (a ++ b).take 2 = a := by
  rw [← h, List.take_left]

theorem drop_two_append {a b : List Char} (h : a.length = 2) :
    (a ++ b).drop 2 = b := by
  rw [← h, List.drop_left]

theorem dirChars_inj {y1 m1 d1 y2 m2 d2 : Nat}
    (hm1 : m1 < 32) (hd1 : d1 < 32) (hm2 : m2 < 32) (hd2 : d2 < 32)
    (h : dirChars y1 m1 d1 = dirChars y2 m2 d2) :
    y1 = y2 ∧ m1 = m2 ∧ d1 = d2 := by
  rw [dirChars_decomp, dirChars_decomp] at h
  obtain ⟨hy, hmid⟩ := append_slash_inj _ _ _ _
    (natChars_no_slash y1) (natChars_no_slash y2) h
  have hyy : y1 = y2 := natChars_inj hy
  have hmm : m1 = m2 := by
    have h2 := congrArg (List.take 2) hmid
    rw [List.append_assoc, List.append_assoc,
      take_two_append (twoDigit_length m1 hm1),
      take_two_append (twoDigit_length m2 hm2)] at h2
    exact twoDigit_inj m1 hm1 m2 hm2 h2
  have hdd : d1 = d2 := by
    have h3 := congrArg (List.drop 2) hmid
    rw [List.append_assoc, List.append_assoc,
      drop_two_append (twoDigit_length m1 hm1),
      drop_two_append (twoDigit_length m2 hm2)] at h3
    rw [hmm] at h3
    simp only [List.cons_append, List.cons.injEq, true_and] at h3
    have h4 := List.append_cancel_left h3
    simp only [List.cons.injEq, true_and] at h4
    have h5 := congrArg (List.take 2) h4
    rw [take_two_append (twoDigit_length d1 hd1),
      take_two_append (twoDigit_length d2 hd2)] at h5
    exact twoDigit_inj d1 hd1 d2 hd2 h5
  exact ⟨hyy, hmm, hdd⟩

theorem dir_struct_inj {t1 t2 : Timestamp}
    (hm1 : t1.month < 32) (hd1 : t1.day < 32) (hm2 : t2.month < 32) (hd2 : t2.day < 32)
    (h : dir_struct t1 = dir_struct t2) :
    t1.year = t2.year ∧ t1.month = t2.month ∧ t1.day = t2.day := by
  have hdata : dirChars t1.year t1.month t1.day = dirChars t2.year t2.month t2.day := by
    have := congrArg String.data h
    simpa [dir_struct] using this
  exact dirChars_inj hm1 hd1 hm2 hd2 hdata

/-! ### splitext: reassembly and last-dot characterization -/

theorem takeWhile_append_all {p : Char → Bool} (l r : List Char)
    (h : ∀ c ∈ l, p c = true) : (l ++ r).takeWhile p = l ++ r.takeWhile p := by
  induction l with
  | nil => rfl
  | cons x xs ih =>
    simp only [List.cons_append, List.takeWhile_cons, h x (by simp), if_true]
    rw [ih (fun c hc => h c (by simp [hc]))]

theorem dropWhile_append_all {p : Char → Bool} (l r : List Char)
    (h : ∀ c ∈ l, p c = true) : (l ++ r).dropWhile p = r.dropWhile p := by
  induction l with
  | nil => rfl
  | cons x xs ih =>
    simp only [List.cons_append, List.dropWhile_cons, h x (by simp)]
    exact ih (fun c hc => h c (by simp [hc]))

theorem dropWhile_head_false {p : Char → Bool} :
    ∀ (l : List Char) (c : Char) (rest : List Char),
      l.dropWhile p = c :: rest → p c = false
  | [], _, _, h => by simp at h
  | x :: xs, c, rest, h => by
    by_cases hx : p x
    · rw [List.dropWhile_cons, if_pos hx] at h
      exact dropWhile_head_false xs c rest h
    · rw [List.dropWhile_cons, if_neg hx] at h
      simp only [List.cons.injEq] at h
      rw [← h.1]
      simpa using hx

theorem splitext_append (p : List Char) :
    (splitext p).1 ++ (splitext p).2 = p := by
  unfold splitext
  rw [List.span_eq_take_drop]
  rcases hdw : p.reverse.dropWhile (fun c => c ≠ '.') with _ | ⟨c, rpre⟩
  · simp
  · have hc : c = '.' := by
      have hraw := dropWhile_head_false _ _ _ hdw
      simpa using hraw
    have hsplit : p.reverse.takeWhile (fun c => c ≠ '.') ++ c :: rpre = p.reverse := by
      rw [← hdw]
      exact List.takeWhile_append_dropWhile _ _
    have hp : p = rpre.reverse ++ c :: (p.reverse.takeWhile (fun c => c ≠ '.')).reverse := by
      have h2 := congrArg List.reverse hsplit
      simpa using h2.symm
    split
    · rename_i fst heq
      simp at heq
    · rename_i x rsuf hd rpre2 heq
      simp only [Prod.mk.injEq, List.cons.injEq] at heq
      obtain ⟨h1, h2, h3⟩ := heq
      subst h1
      subst h2
      subst h3
      split
      · dsimp only
        rw [hc] at hp
        exact hp.symm
      · dsimp only
        simp

theorem splitext_concrete (s e : List Char)
    (he : ∀ c ∈ e, c ≠ '.') (hs : ∃ c ∈ s, c ≠ '.') :
    splitext (s ++ '.' :: e) = (s, '.' :: e) := by
  unfold splitext
  rw [List.span_eq_take_drop]
  have hrev : (s ++ '.' :: e).reverse = e.reverse ++ '.' :: s.reverse := by simp
  have hall : ∀ c ∈ e.reverse, (fun c => decide (c ≠ '.')) c = true := by
    intro c hc
    simpa using he c (List.mem_reverse.mp hc)
  rw [hrev, takeWhile_append_all _ _ hall, dropWhile_append_all _ _ hall]
  have htw : ('.' :: s.reverse).takeWhile (fun c => decide (c ≠ '.')) = [] := by
    simp [List.takeWhile_cons]
  have hdw : ('.' :: s.reverse).dropWhile (fun c => decide (c ≠ '.')) = '.' :: s.reverse := by
    simp [List.dropWhile_cons]
  rw [htw, hdw]
  have hany : s.reverse.any (fun c => c ≠ '.') = true := by
    obtain ⟨c, hc, hne⟩ := hs
    exact List.any_eq_true.mpr ⟨c, List.mem_reverse.mpr hc, by simpa using hne⟩
  simp [hany]
  exact hs

theorem outputName_concrete (s e : List Char)
    (he : ∀ c ∈ e, c ≠ '.') (hs : ∃ c ∈ s, c ≠ '.') :
    outputName (s ++ '.' :: e) = s ++ '.' :: lowerChars e := by
  unfold outputName
  rw [splitext_concrete s e he hs]
  simp [lowerChars]

/-! ### Dict lemmas -/

theorem lookup_cons (k a b : String) (l : DB) :
    List.lookup k ((a, b) :: l) = if k = a then some b else List.lookup k l := by
  by_cases h : k = a
  · simp [List.lookup, h]
  · simp [List.lookup, h, beq_false_of_ne h]


theorem lookup_filter_ne (db : DB) (h k : String) (hne : h ≠ k) :
    (db.filter (fun p => p.1 ≠ k)).lookup h = db.lookup h := by
  induction db with
  | nil => rfl
  | cons q rest ih =>
    rcases q with ⟨a, b⟩
    rw [List.filter_cons]
    by_cases hak : a = k
    · have hcond : (decide ((a, b).1 ≠ k)) = false := by simp [hak]
      rw [hcond]
      simp only [Bool.false_eq_true, if_false]
      rw [ih, lookup_cons, if_neg (fun hha => hne (hha.trans hak))]
    · have hcond : (decide ((a, b).1 ≠ k)) = true := by simp [hak]
      rw [hcond]
      rw [if_pos rfl]
      rw [lookup_cons, lookup_cons]
      by_cases hha : h = a
      · simp [hha]
      · rw [if_neg hha, if_neg hha, ih]

theorem lookup_dbInsert (db : DB) (k v h : String) :
    (dbInsert k v db).lookup h = if h = k then some v else db.lookup h := by
  unfold dbInsert
  rw [lookup_cons]
  by_cases hk : h = k
  · simp [hk]
  · rw [if_neg hk, if_neg hk, lookup_filter_ne db h k hk]

theorem dbExist_dbInsert (db : DB) (k v h : String) :
    dbExist h (dbInsert k v db) = (h = k || dbExist h db) := by
  unfold dbExist
  rw [lookup_dbInsert]
  by_cases hk : h = k
  · simp [hk]
  · simp [hk]

theorem lookup_load_foldl :
    ∀ (rows : List (List String)) (db : DB) (k : String),
      (rows.foldl (fun db r => dbInsert (r.getD 0 "") (r.getD 1 "") db) db).lookup k =
        match rows.reverse.find? (fun r => r.getD 0 "" == k) with
        | some r => some (r.getD 1 "")
        | none => db.lookup k
  | [], _, _ => rfl
  | r :: rest, db, k => by
    simp only [List.foldl_cons, List.reverse_cons, List.find?_append]
    rw [lookup_load_foldl rest (dbInsert (r.getD 0 "") (r.getD 1 "") db) k]
    rcases hf : rest.reverse.find? (fun r => r.getD 0 "" == k) with _ | r'
    · rw [hf, lookup_dbInsert]
      by_cases hpred : r.getD 0 "" = k
      · rw [if_pos hpred.symm]
        have hb : (r.getD 0 "" == k) = true := beq_iff_eq.mpr hpred
        have hfr : List.find? (fun r => r.getD 0 "" == k) [r] = some r := by
          rw [List.find?_cons, hb]
        rw [hfr]
        rfl
      · rw [if_neg (fun hh => hpred hh.symm)]
        have hb : (r.getD 0 "" == k) = false := beq_eq_false_iff_ne.mpr hpred
        have hfr : List.find? (fun r => r.getD 0 "" == k) [r] = none := by
          rw [List.find?_cons, hb]
          rfl
        rw [hfr]
        rfl
    · rw [hf]
      rfl

/-! ### Run-level helper lemmas -/

/-- The state an iteration hands to what follows (its continuation state,
whether the run goes on or aborts). -/
def StepOut.outState : StepOut → SortState
  | .next st => st
  | .abort _ st => st

/-- The destination directory computed for a candidate at lines 161-167:
`os.path.join(self.args.output, dir_struct)` for its resolved date. -/
def destDir (output : String) (f : FileRec) : String :=
  output ++ "/" ++ dir_struct (get_exif_date (String.mk f.name) f.exif f.mtime).1

/-- The destination file path: lower-cased-extension name inside the
destination directory. -/
def destPath (output : String) (f : FileRec) : String :=
  destDir output f ++ "/" ++ String.mk (outputName f.name)

theorem copy_file_fatal_code {fs : FS} {remove writeOk : Bool} {input : String}
    {name : List Char} {outdir content : String} {fs' : FS} {c : Nat} {evs : List Event}
    (h : copy_file fs remove writeOk input name outdir content = (fs', .fatal c, evs)) :
    c = 0 := by
  unfold copy_file at h
  by_cases hex : fsExists (outdir ++ "/" ++ String.mk (outputName name)) fs = true
  · rw [if_pos hex] at h
    simp at h
  · rw [if_neg hex] at h
    by_cases hw : writeOk = false
    · rw [if_pos hw] at h
      simp only [Prod.mk.injEq, CopyResult.fatal.injEq] at h
      exact h.2.1.symm
    · rw [if_neg hw] at h
      simp at h

theorem sortStep_abort_code {remove : Bool} {output : String} {st : SortState}
    {f : FileRec} {c : Nat} {st' : SortState}
    (h : sortStep remove output st f = .abort c st') : c = 0 := by
  simp only [sortStep] at h
  split at h
  · split at h
    · simp at h
    · split at h
      · simp at h
      · rename_i fs2 c2 evs2 heq
        simp only [StepOut.abort.injEq] at h
        rw [← h.1]
        exact copy_file_fatal_code heq
      · simp at h
  · simp at h

theorem sortFiles_exitCode (remove : Bool) (output : String) :
    ∀ (l : List FileRec) (st : SortState),
      (sortFiles remove output st l).exitCode = 0
  | [], _ => rfl
  | f :: rest, st => by
    unfold sortFiles
    rcases hs : sortStep remove output st f with st' | ⟨c, st'⟩
    · exact sortFiles_exitCode remove output rest st'
    · simp [RunResult.exitCode, sortStep_abort_code hs]

theorem load_database_error_code {s : Option Store} {c : Nat} {evs : List Event}
    (h : load_database s = .error (c, evs)) : c = 0 := by
  rcases s with _ | s
  · simp [load_database] at h
  · simp only [load_database] at h
    split at h
    · simp only [Except.error.injEq, Prod.mk.injEq] at h
      exact h.1.symm
    · simp at h

theorem runPhotoSort_exitCode (env : Env) : (runPhotoSort env).exitCode = 0 := by
  unfold runPhotoSort
  rcases hl : load_database env.store with ⟨c, evs⟩ | ⟨db, evs⟩
  · simp [RunResult.exitCode, load_database_error_code hl]
  · exact sortFiles_exitCode env.remove env.output env.files _

theorem sortStep_dup (remove : Bool) (output : String) (st : SortState) (f : FileRec)
    (hj : isJpegName f.name = true) (hd : dbExist f.content st.db = true) :
    sortStep remove output st f =
      .next { st with events := st.events ++ [.infoDuplicate (filePath f)] } := by
  simp only [sortStep, hj, hd, if_true]

theorem sortStep_conflict (remove : Bool) (output : String) (st : SortState) (f : FileRec)
    (hj : isJpegName f.name = true) (hd : dbExist f.content st.db = false)
    (hex : fsExists (destPath output f) st.fs = true) :
    sortStep remove output st f =
      .next { st with events := st.events ++
        (get_exif_date (String.mk f.name) f.exif f.mtime).2 ++
        [.errorDestExists (destPath output f)] } := by
  have hcf : copy_file st.fs remove f.writeOk (filePath f) f.name (destDir output f) f.content
      = (st.fs, .conflict, [.errorDestExists (destPath output f)]) := by
    have hex' : fsExists (destDir output f ++ "/" ++ String.mk (outputName f.name)) st.fs = true := hex
    simp only [copy_file, hex', if_true]
    rfl
  simp only [sortStep, hj, hd, if_true, Bool.false_eq_true, if_false]
  rw [show (output ++ "/" ++ dir_struct (get_exif_date { data := f.name } f.exif f.mtime).1)
      = destDir output f from rfl]
  rw [hcf]

theorem sortStep_db_mono (remove : Bool) (output : String) (st : SortState) (f : FileRec)
    (h : String) (hd : dbExist h st.db = true) :
    dbExist h (sortStep remove output st f).outState.db = true := by
  simp only [sortStep]
  split
  · split
    · simpa [StepOut.outState] using hd
    · rename_i hdup
      split
      · simpa [StepOut.outState] using hd
      · simpa [StepOut.outState] using hd
      · rename_i fs2 evs2 heq
        simp only [StepOut.outState, add_hash]
        rw [if_neg hdup]
        simp only [dbExist_dbInsert, hd, Bool.or_true]
  · simpa [StepOut.outState] using hd

theorem sortStep_success_records (remove : Bool) (output : String) (st : SortState)
    (f : FileRec) (st' : SortState)
    (h : sortStep remove output st f = .next st') (hcount : st'.count = st.count + 1) :
    st'.db.lookup f.content = some (filePath f) := by
  simp only [sortStep] at h
  split at h
  · split at h
    · cases h
      simp at hcount
    · rename_i hdup
      split at h
      · cases h
        simp at hcount
      · simp at h
      · rename_i fs2 evs2 heq
        cases h
        simp only [add_hash]
        rw [if_neg hdup]
        simp [lookup_dbInsert]
  · cases h
    simp at hcount

/-! ### Concrete run environments used by counterexamples and witnesses -/

/-- A capture date used by concrete runs: 2020-01-05, a Sunday. -/
def tJan5 : Timestamp := ⟨2020, 1, 5, 0, 0, 0⟩

/-- Two byte-identical candidates; the first candidate's destination path
is already occupied by an unrelated file, the second candidate's is free. -/
def envC1 : Env :=
  { files := [
      { dir := "in", name := "a.jpg".data, content := "X",
        exif := .dateTimeOriginal tJan5, mtime := tJan5, writeOk := true },
      { dir := "in", name := "b.jpg".data, content := "X",
        exif := .dateTimeOriginal tJan5, mtime := tJan5, writeOk := true }],
    initFS := [("in/a.jpg", "X"), ("in/b.jpg", "X"),
               ("out/2020/01-January/05-Sunday/a.jpg", "Y")],
    store := none, remove := false, output := "out" }

/-- A run whose persisted store exists but cannot be read. -/
def envC3 : Env :=
  { files := [], initFS := [], store := some { readable := false, rows := [] },
    remove := false, output := "out" }

/-- One fresh candidate, successfully placed and recorded. -/
def envC5 : Env :=
  { files := [
      { dir := "in", name := "a.jpg".data, content := "X",
        exif := .dateTimeOriginal tJan5, mtime := tJan5, writeOk := true }],
    initFS := [("in/a.jpg", "X")], store := none, remove := false, output := "out" }

/-- C1 counterexample input: a state whose ledger already holds the
candidate's digest. -/
def stC1 : SortState :=
  { fs := [("in/a.jpg", "X")], db := [("X", "p")], onDisk := [], buffered := [],
    count := 0, events := [] }

/-- C1 counterexample input: a candidate whose digest is `"X"`. -/
def fC1 : FileRec :=
  { dir := "in", name := "a.jpg".data, content := "X", exif := .noExif,
    mtime := tJan5, writeOk := true }

/-- C1 corrected-claim theorem follows; the run in `envC1` refutes the
claim as frozen: both candidates have byte-identical content, yet the
second one is placed (a destination write occurs for it) and is not
reported as a duplicate, because the first one hit a destination conflict
and was therefore never recorded in the ledger. -/
theorem C1_counterexample :
    envC1.files.map (fun f => f.content) = ["X", "X"] ∧
    ((runPhotoSort envC1).state.fs.lookup "out/2020/01-January/05-Sunday/b.jpg"
      = some "X") ∧
    (runPhotoSort envC1).state.events.count (.infoDuplicate "in/b.jpg") = 0 ∧
    ((runPhotoSort envC1).state.fs.lookup "out/2020/01-January/05-Sunday/a.jpg"
      = some "Y") := by
  refine ⟨rfl, ?_, ?_, ?_⟩ <;> decide

/-- C1 (amended): a candidate whose digest is already in the ledger at its
turn is skipped as a duplicate — the step changes nothing but the log
(source untouched, no destination write, no ledger entry, nothing written
to the store stream); ledger membership persists across any step; and a
placement counted as sorted (counter bumped) records this candidate's
digest and path in the ledger.  Together: once the first same-content
candidate is successfully placed and recorded, every subsequent same-digest
candidate is skipped. -/
theorem C1_theorem : ∀ (remove : Bool) (output : String) (st : SortState) (f : FileRec),
    (isJpegName f.name = true → dbExist f.content st.db = true →
      sortStep remove output st f =
        .next { st with events := st.events ++ [.infoDuplicate (filePath f)] }) ∧
    (∀ h, dbExist h st.db = true →
      dbExist h (sortStep remove output st f).outState.db = true) ∧
    (∀ st', sortStep remove output st f = .next st' → st'.count = st.count + 1 →
      st'.db.lookup f.content = some (filePath f)) :=
  fun remove output st f =>
    ⟨sortStep_dup remove output st f,
     sortStep_db_mono remove output st f,
     sortStep_success_records remove output st f⟩

/-- C1 witness: the skip and persistence conclusions at a concrete state
whose ledger holds digest `"X"`. -/
theorem C1_witness :
    sortStep false "out" stC1 fC1 =
      .next { stC1 with events := stC1.events ++ [.infoDuplicate (filePath fC1)] } ∧
    dbExist "X" (sortStep false "out" stC1 fC1).outState.db = true :=
  ⟨(C1_theorem false "out" stC1 fC1).1 (by decide) (by decide),
   (C1_theorem false "out" stC1 fC1).2.1 "X" (by decide)⟩

/-- C2: date resolution is total — `get_exif_date` always returns a
timestamp, and in each of the three metadata-failure cases (no EXIF data,
EXIF without the `DateTimeOriginal` field, field present but unparsable)
it returns the file's last-modified timestamp, each case emitting its own
distinct diagnostic event; a parsed field is returned as-is with no
diagnostic. -/
theorem C2_theorem : ∀ (name : String) (m : Timestamp),
    get_exif_date name .noExif m = (m, [.infoNoExif name]) ∧
    get_exif_date name .noDateField m = (m, [.infoNoDateField name]) ∧
    get_exif_date name .badDateField m = (m, [.warnBadDate name]) ∧
    (∀ t, get_exif_date name (.dateTimeOriginal t) m = (t, [])) :=
  fun _ _ => ⟨rfl, rfl, rfl, fun _ => rfl⟩

/-- C3 counterexample: with an unreadable ledger store the run is fatal
(it aborts before processing), yet its exit status is 0 — `sys.exit(0)` —
so the fatal condition does not produce a non-zero exit status. -/
theorem C3_counterexample :
    (runPhotoSort envC3).isFatal = true ∧
    (runPhotoSort envC3).exitCode = 0 := by
  constructor <;> decide

/-- C3 (amended): non-fatal conditions never by themselves produce a
non-zero exit status, and fatal conditions terminate the run immediately —
but the script calls `sys.exit(0)`, so every run, fatal or not, exits with
status 0; a fatal abort is distinguishable by the abort itself and its
error diagnostics, not by the exit status. -/
theorem C3_theorem : ∀ (env : Env),
    (runPhotoSort env).exitCode = 0 ∧
    (∀ s, env.store = some s → s.readable = false →
      (runPhotoSort env).isFatal = true) := by
  intro env
  refine ⟨runPhotoSort_exitCode env, ?_⟩
  intro s hs hr
  unfold runPhotoSort
  rw [hs]
  simp only [load_database]
  rw [if_pos (Or.inl hr)]
  rfl

/-- C3 witness: the run over the unreadable store aborts and exits 0. -/
theorem C3_witness :
    (runPhotoSort envC3).exitCode = 0 ∧ (runPhotoSort envC3).isFatal = true :=
  ⟨(C3_theorem envC3).1, (C3_theorem envC3).2 ⟨false, []⟩ rfl rfl⟩

/-- C4: `add_hash` on a digest already present fails with a reported
duplicate conflict — the dict, the store stream and the existing mapping
are all unchanged and the error event is logged; on a fresh digest it
inserts the mapping (preserving all others) and appends exactly one
`(digest, source_path)` row to the store stream, with no error. -/
theorem C4_theorem : ∀ (db : DB) (buffered : List Row) (h f : String),
    (dbExist h db = true →
      add_hash db buffered h f = (db, buffered, [.errorDupEntry f])) ∧
    (dbExist h db = false →
      (add_hash db buffered h f).1.lookup h = some f ∧
      (∀ k, k ≠ h → (add_hash db buffered h f).1.lookup k = db.lookup k) ∧
      (add_hash db buffered h f).2.1 = buffered ++ [(h, f)] ∧
      (add_hash db buffered h f).2.2 = []) := by
  intro db buffered h f
  constructor
  · intro hd
    simp [add_hash, hd]
  · intro hd
    have hah : add_hash db buffered h f
        = (dbInsert h f db, buffered ++ [(h, f)], []) := by
      simp [add_hash, hd]
    rw [hah]
    refine ⟨?_, ?_, rfl, rfl⟩
    · simp [lookup_dbInsert]
    · intro k hk
      simp only [lookup_dbInsert]
      rw [if_neg hk]

/-- C4 witness: a conflicting insert is rejected and reported; a fresh
insert appends its row to the stream. -/
theorem C4_witness :
    add_hash [("h1", "p1")] [] "h1" "p2" = ([("h1", "p1")], [], [.errorDupEntry "p2"]) ∧
    (add_hash [] [] "h1" "p1").2.1 = [("h1", "p1")] :=
  ⟨(C4_theorem [("h1", "p1")] [] "h1" "p2").1 (by decide),
   ((C4_theorem [] [] "h1" "p1").2 (by decide)).2.2.1⟩

/-- C5 counterexample: a run places and records one candidate (count 1),
after which the row sits only in the process's buffered stream; the store
as it would survive a crash right then is empty, and a next run loading
that store sees the same content as non-duplicate.  Durability at return
time fails. -/
theorem C5_counterexample :
    (runPhotoSort envC5).state.count = 1 ∧
    (runPhotoSort envC5).state.buffered = [("X", "in/a.jpg")] ∧
    storeAfterCrash (runPhotoSort envC5).state = [] ∧
    load_database (some (Store.mk true
        ((storeAfterCrash (runPhotoSort envC5).state).map (fun r => [r.1, r.2]))))
      = .ok ([], [.debugLoaded 0]) ∧
    dbExist "X" [] = false := by
  refine ⟨by decide, by decide, by decide, rfl, by decide⟩

/-- C5 (amended): a successful `add_hash` appends its row to the buffered
append stream only — the row is in the persisted store after a clean
process exit (close flushes), but the on-disk store is unchanged when the
call returns, so a crash immediately after loses the row and the same
content is re-admitted as non-duplicate on the next run. -/
theorem C5_theorem : ∀ (st : SortState) (h f : String),
    dbExist h st.db = false →
    (let ah := add_hash st.db st.buffered h f
     let st' := { st with db := ah.1, buffered := ah.2.1 }
     storeAtCleanExit st' = storeAtCleanExit st ++ [(h, f)] ∧
     storeAfterCrash st' = storeAfterCrash st ∧
     dbExist h st'.db = true) := by
  intro st h f hd
  have hah : add_hash st.db st.buffered h f
      = (dbInsert h f st.db, st.buffered ++ [(h, f)], []) := by
    simp [add_hash, hd]
  simp only [hah]
  refine ⟨?_, rfl, ?_⟩
  · simp [storeAtCleanExit, List.append_assoc]
  · simp [dbExist_dbInsert]

/-- C5 witness input state: some store content already on disk and one
row already buffered. -/
def stC5 : SortState :=
  { fs := [], db := [], onDisk := [("d1", "q1")], buffered := [("d2", "q2")],
    count := 0, events := [] }

/-- C5 witness: the amended durability facts at a concrete state. -/
theorem C5_witness :
    dbExist "h1" stC5.db = false ∧
    (let ah := add_hash stC5.db stC5.buffered "h1" "p1"
     let st' := { stC5 with db := ah.1, buffered := ah.2.1 }
     storeAtCleanExit st' = storeAtCleanExit stC5 ++ [("h1", "p1")] ∧
     storeAfterCrash st' = storeAfterCrash stC5 ∧
     dbExist "h1" st'.db = true) :=
  ⟨by decide, C5_theorem stC5 "h1" "p1" (by decide)⟩

/-- C6: loading the ledger store: if the store file does not exist, load
returns an empty ledger with a non-fatal warning and the run proceeds; if
it exists but is unreadable or holds a malformed row, the whole run
terminates (`sys.exit(0)`) with the initial filesystem untouched — no
destination file has been written — and only the store-read error
reported. -/
theorem C6_theorem :
    load_database none = .ok ([], [.warnNewStore]) ∧
    (∀ (env : Env) (s : Store), env.store = some s →
      (s.readable = false ∨ s.rows.any badRow = true) →
      (runPhotoSort env).isFatal = true ∧
      (runPhotoSort env).state.fs = env.initFS ∧
      (runPhotoSort env).state.events = [.errorStoreRead]) := by
  constructor
  · rfl
  · intro env s hs hcond
    unfold runPhotoSort
    rw [hs]
    simp only [load_database]
    rw [if_pos hcond]
    exact ⟨rfl, rfl, rfl⟩

/-- C6 witness store/environment: an existing store with a malformed
(single-field) row, over a non-empty initial filesystem. -/
def envC6 : Env :=
  { files := [], initFS := [("keep/me.jpg", "Z")],
    store := some { readable := true, rows := [["lone-field"]] },
    remove := false, output := "out" }

/-- C6 witness: the malformed-store run aborts with the filesystem
untouched. -/
theorem C6_witness :
    (runPhotoSort envC6).isFatal = true ∧
    (runPhotoSort envC6).state.fs = [("keep/me.jpg", "Z")] :=
  ⟨(C6_theorem.2 envC6 { readable := true, rows := [["lone-field"]] } rfl
      (by decide)).1,
   (C6_theorem.2 envC6 { readable := true, rows := [["lone-field"]] } rfl
      (by decide)).2.1⟩

/-- C7: a non-duplicate jpeg candidate whose computed destination path is
already occupied is a destination conflict: the step leaves the
filesystem, ledger dict and store stream exactly as they were (only the
log grows by the conflict event after the date-resolution diagnostics),
and the loop continues with the remaining candidates. -/
theorem C7_theorem : ∀ (remove : Bool) (output : String) (st : SortState)
    (f : FileRec) (rest : List FileRec),
    isJpegName f.name = true → dbExist f.content st.db = false →
    fsExists (destPath output f) st.fs = true →
    sortStep remove output st f =
      .next { st with events := st.events ++
        (get_exif_date (String.mk f.name) f.exif f.mtime).2 ++
        [.errorDestExists (destPath output f)] } ∧
    sortFiles remove output st (f :: rest) =
      sortFiles remove output
        { st with events := st.events ++
          (get_exif_date (String.mk f.name) f.exif f.mtime).2 ++
          [.errorDestExists (destPath output f)] } rest := by
  intro remove output st f rest hj hd hex
  have h1 := sortStep_conflict remove output st f hj hd hex
  refine ⟨h1, ?_⟩
  conv_lhs => rw [sortFiles]
  rw [h1]

/-- C7 witness state: the candidate's destination is already occupied. -/
def stC7 : SortState :=
  { fs := [("out/2020/01-January/05-Sunday/a.jpg", "Z"), ("in/a.jpg", "X")],
    db := [], onDisk := [], buffered := [], count := 0, events := [] }

/-- C7 witness candidate. -/
def fC7 : FileRec :=
  { dir := "in", name := "a.jpg".data, content := "X",
    exif := .dateTimeOriginal tJan5, mtime := tJan5, writeOk := true }

/-- C7 witness: the conflict conclusions at the concrete state. -/
theorem C7_witness :
    sortStep false "out" stC7 fC7 =
      .next { stC7 with events := stC7.events ++
        (get_exif_date (String.mk fC7.name) fC7.exif fC7.mtime).2 ++
        [.errorDestExists (destPath "out" fC7)] } ∧
    sortFiles false "out" stC7 [fC7] =
      sortFiles false "out"
        { stC7 with events := stC7.events ++
          (get_exif_date (String.mk fC7.name) fC7.exif fC7.mtime).2 ++
          [.errorDestExists (destPath "out" fC7)] } [] :=
  C7_theorem false "out" stC7 fC7 [] (by decide) (by decide) (by decide)

/-- C8: in move mode the source is removed only after a fully successful
destination write.  A placement that is not a success leaves the
filesystem exactly as it was (in particular the source file still exists);
a successful placement leaves the content at the destination path (so the
deletion of the source happens only once the destination holds it); and an
injected commit failure on a free destination is the fatal exit with the
filesystem unchanged.  At no point are there zero copies of the file. -/
theorem C8_theorem : ∀ (fs : FS) (writeOk : Bool) (input : String)
    (name : List Char) (outdir content : String),
    (∀ fs' r evs, copy_file fs true writeOk input name outdir content = (fs', r, evs) →
      r ≠ .success → fs' = fs) ∧
    (fs.lookup input = some content →
      ∀ fs' evs, copy_file fs true writeOk input name outdir content = (fs', .success, evs) →
        fs'.lookup (outdir ++ "/" ++ String.mk (outputName name)) = some content) ∧
    (fsExists (outdir ++ "/" ++ String.mk (outputName name)) fs = false →
      writeOk = false →
      copy_file fs true writeOk input name outdir content
        = (fs, .fatal 0, [.errorCopyFail input outdir])) := by
  intro fs writeOk input name outdir content
  refine ⟨?_, ?_, ?_⟩
  · intro fs' r evs h hne
    unfold copy_file at h
    by_cases hex : fsExists (outdir ++ "/" ++ String.mk (outputName name)) fs = true
    · rw [if_pos hex] at h
      simp only [Prod.mk.injEq] at h
      exact h.1.symm
    · rw [if_neg hex] at h
      by_cases hw : writeOk = false
      · rw [if_pos hw] at h
        simp only [Prod.mk.injEq] at h
        exact h.1.symm
      · rw [if_neg hw] at h
        simp only [Prod.mk.injEq] at h
        exact absurd h.2.1.symm hne
  · intro hsrc fs' evs h
    unfold copy_file at h
    by_cases hex : fsExists (outdir ++ "/" ++ String.mk (outputName name)) fs = true
    · rw [if_pos hex] at h
      simp at h
    · rw [if_neg hex] at h
      by_cases hw : writeOk = false
      · rw [if_pos hw] at h
        simp at h
      · rw [if_neg hw] at h
        simp only [if_pos rfl, Prod.mk.injEq] at h
        have hne : outdir ++ "/" ++ String.mk (outputName name) ≠ input := by
          intro heq
          rw [heq] at hex
          simp [fsExists, hsrc] at hex
        rw [← h.1]
        simp [List.filter_cons, hne, lookup_cons]
  · intro hex hw
    unfold copy_file
    rw [if_neg (by simp [hex]), if_pos hw]

/-- C8 witness: a commit failure leaves the source in place with the run
fatal; a successful move leaves the content at the destination. -/
theorem C8_witness :
    copy_file [("in/a.jpg", "X")] true false "in/a.jpg" "a.jpg".data "out/d" "X"
      = ([("in/a.jpg", "X")], .fatal 0, [.errorCopyFail "in/a.jpg" "out/d"]) ∧
    List.lookup ("out/d" ++ "/" ++ String.mk (outputName "a.jpg".data))
      (copy_file [("in/a.jpg", "X")] true true "in/a.jpg" "a.jpg".data "out/d" "X").1
      = some "X" :=
  ⟨(C8_theorem [("in/a.jpg", "X")] false "in/a.jpg" "a.jpg".data "out/d" "X").2.2
      (by decide) rfl,
   (C8_theorem [("in/a.jpg", "X")] true "in/a.jpg" "a.jpg".data "out/d" "X").2.1
      (by decide)
      (copy_file [("in/a.jpg", "X")] true true "in/a.jpg" "a.jpg".data "out/d" "X").1
      (copy_file [("in/a.jpg", "X")] true true "in/a.jpg" "a.jpg".data "out/d" "X").2.2
      (by decide)⟩

/-- C9: the destination directory is a pure function of the resolved date
(two resolved dates with the same year/month/day triple — whatever their
time fields — give the same directory string; with the months in 1..12 and
days in 1..31, distinct triples give distinct directory strings), and the
destination file name is the candidate's base name with only its extension
lower-cased (the extension being the part from the last dot, and root and
extension reassembling to the original name). -/
theorem C9_theorem : ∀ (t1 t2 : Timestamp),
    (t1.year = t2.year → t1.month = t2.month → t1.day = t2.day →
      dir_struct t1 = dir_struct t2) ∧
    (1 ≤ t1.month → t1.month ≤ 12 → 1 ≤ t1.day → t1.day ≤ 31 →
     1 ≤ t2.month → t2.month ≤ 12 → 1 ≤ t2.day → t2.day ≤ 31 →
     dir_struct t1 = dir_struct t2 →
     t1.year = t2.year ∧ t1.month = t2.month ∧ t1.day = t2.day) ∧
    (∀ (s e : List Char), (∀ c ∈ e, c ≠ '.') → (∃ c ∈ s, c ≠ '.') →
      outputName (s ++ '.' :: e) = s ++ '.' :: lowerChars e) ∧
    (∀ name : List Char, (splitext name).1 ++ (splitext name).2 = name) := by
  intro t1 t2
  refine ⟨?_, ?_, outputName_concrete, splitext_append⟩
  · intro hy hm hd
    unfold dir_struct
    rw [hy, hm, hd]
  · intro hm1a hm1b hd1a hd1b hm2a hm2b hd2a hd2b h
    exact dir_struct_inj (by omega) (by omega) (by omega) (by omega) h

/-- C9 witness: two resolved dates equal up to their time fields share a
directory; the injectivity conclusion at those dates; and the lower-cased
destination name of `photo01.JPG`. -/
theorem C9_witness :
    dir_struct ⟨2020, 1, 5, 10, 30, 0⟩ = dir_struct ⟨2020, 1, 5, 23, 59, 59⟩ ∧
    ((⟨2020, 1, 5, 10, 30, 0⟩ : Timestamp).year
        = (⟨2020, 1, 5, 23, 59, 59⟩ : Timestamp).year ∧
      (⟨2020, 1, 5, 10, 30, 0⟩ : Timestamp).month
        = (⟨2020, 1, 5, 23, 59, 59⟩ : Timestamp).month ∧
      (⟨2020, 1, 5, 10, 30, 0⟩ : Timestamp).day
        = (⟨2020, 1, 5, 23, 59, 59⟩ : Timestamp).day) ∧
    outputName ("photo01".data ++ '.' :: "JPG".data)
      = "photo01".data ++ '.' :: lowerChars "JPG".data :=
  ⟨(C9_theorem ⟨2020, 1, 5, 10, 30, 0⟩ ⟨2020, 1, 5, 23, 59, 59⟩).1 rfl rfl rfl,
   (C9_theorem ⟨2020, 1, 5, 10, 30, 0⟩ ⟨2020, 1, 5, 23, 59, 59⟩).2.1
     (by decide) (by decide) (by decide) (by decide) (by decide) (by decide)
     (by decide) (by decide) (by decide),
   (C9_theorem ⟨2020, 1, 5, 10, 30, 0⟩ ⟨2020, 1, 5, 23, 59, 59⟩).2.2.1
     "photo01".data "JPG".data (by decide) (by decide)⟩

/-- C10 (implicit): when the persisted store holds two rows with the same
digest (and every row is well formed), loading succeeds silently — the
only event is the debug count, no conflict is reported — and the in-memory
dict keeps the last row's source path for that digest, the earlier
association being overwritten; in contrast, insert-time `add_hash` on the
loaded dict rejects a second association for that digest and reports it. -/
theorem C10_theorem : ∀ (s : Store) (hsh p1 p2 : String)
    (pre mid post : List (List String)),
    s.readable = true →
    (∀ r ∈ s.rows, badRow r = false) →
    s.rows = pre ++ [hsh, p1] :: mid ++ [hsh, p2] :: post →
    (∀ r ∈ post, r.getD 0 "" ≠ hsh) →
    ∃ db : DB, load_database (some s) = .ok (db, [.debugLoaded db.length]) ∧
      db.lookup hsh = some p2 ∧
      (∀ buffered, add_hash db buffered hsh p1 = (db, buffered, [.errorDupEntry p1])) := by
  intro s hsh p1 p2 pre mid post hread hwf hrows hpost
  have hcond : ¬(s.readable = false ∨ s.rows.any badRow = true) := by
    rintro (h | h)
    · rw [hread] at h
      cases h
    · obtain ⟨r, hr, hbad⟩ := List.any_eq_true.mp h
      rw [hwf r hr] at hbad
      cases hbad
  have hlook : (s.rows.foldl (fun db r => dbInsert (r.getD 0 "") (r.getD 1 "") db) []).lookup hsh
      = some p2 := by
    rw [lookup_load_foldl]
    have hrev : s.rows.reverse
        = post.reverse ++ [hsh, p2] :: (mid.reverse ++ [hsh, p1] :: pre.reverse) := by
      rw [hrows]
      simp
    rw [hrev, List.find?_append]
    have hnone : post.reverse.find? (fun r => r.getD 0 "" == hsh) = none := by
      apply List.find?_eq_none.mpr
      intro r hr
      simpa using hpost r (List.mem_reverse.mp hr)
    have hfind : (([hsh, p2] :: (mid.reverse ++ [hsh, p1] :: pre.reverse)).find?
        (fun r => r.getD 0 "" == hsh)) = some [hsh, p2] := by
      rw [List.find?_cons]
      have hb : (([hsh, p2] : List String).getD 0 "" == hsh) = true := beq_self_eq_true hsh
      rw [hb]
    rw [hnone, hfind]
    rfl
  refine ⟨s.rows.foldl (fun db r => dbInsert (r.getD 0 "") (r.getD 1 "") db) [], ?_, hlook, ?_⟩
  · simp only [load_database]
    rw [if_neg hcond]
  · intro buffered
    have hex : dbExist hsh (s.rows.foldl (fun db r => dbInsert (r.getD 0 "") (r.getD 1 "") db) [])
        = true := by
      unfold dbExist
      rw [hlook]
      rfl
    unfold add_hash
    simp only [hex, if_true]

/-- C10 witness: a store whose two rows share digest `"h"`. -/
theorem C10_witness :
    ∃ db : DB, load_database (some { readable := true, rows := [["h", "a"], ["h", "b"]] })
        = .ok (db, [.debugLoaded db.length]) ∧
      db.lookup "h" = some "b" ∧
      (∀ buffered, add_hash db buffered "h" "a" = (db, buffered, [.errorDupEntry "a"])) :=
  C10_theorem { readable := true, rows := [["h", "a"], ["h", "b"]] } "h" "a" "b"
    [] [] [] rfl (by decide) rfl (by decide)
